import Mathlib

/-!
Shallow embedding of `src/namedzip/namedzip.py`.

Iterables are modelled as finite lists of Python values; generators are
modelled by the finite list of elements they yield; a raised exception is
modelled by `Except.error`.  Each definition below carries the name of the
Python function it translates.
-/

namespace Namedzip

/-- Python values appearing as sequence elements, fill values and defaults.
`Val.none` models the Python `None` object and `Val.sentinel` models the
module-level `sentinel = object()` marker. -/
inductive Val where
  | int : Int → Val
  | str : String → Val
  | none : Val
  | sentinel : Val
deriving DecidableEq, Repr

/-- A named tuple class: the type name, the ordered field names, and the
`_field_defaults` mapping, which is empty unless the class was created with
the `defaults` keyword of `collections.namedtuple`. -/
structure NamedTuple where
  typename : String
  fields : List String
  fieldDefaults : List (String × Val)
deriving DecidableEq, Repr

/-- A named tuple instance `named_tuple(*vals)`: the class plus the field
values, in field order. -/
structure Record where
  schema : NamedTuple
  values : List Val
deriving DecidableEq, Repr

/-- The exceptions the module raises: `ValueError` for an iterable count that
differs from the field count, `ValueError` for a defaults table whose size
differs from the field count, and `TypeError` from `_verify_named_tuple`. -/
inductive ZipError where
  | arityMismatch : Nat → Nat → ZipError
  | defaultsMismatch : Nat → Nat → ZipError
  | typeError : ZipError
deriving DecidableEq, Repr

/-- Total list indexing: `nthD l i d` is `l[i]` when `i` is in bounds and `d`
otherwise. -/
def nthD (l : List Val) (i : Nat) (d : Val) : Val := l[i]?.getD d

/-- Number of tuples produced by `zip(*iterables)` on finite sequences: the
minimum of the lengths, and 0 when no iterables are given (Python `zip()`
with no arguments is an empty iterator). -/
def minLen : List (List Val) → Nat
  | [] => 0
  | l :: ls => (ls.map List.length).foldl Nat.min l.length

/-- Number of tuples produced by `itertools.zip_longest(*iterables)`: the
maximum of the lengths, and 0 when no iterables are given. -/
def maxLen (its : List (List Val)) : Nat := (its.map List.length).foldl Nat.max 0

/-- `zip(*iterables)` on finite sequences: row `i` holds the i-th element of
each iterable, for `i` below the length of the shortest iterable.  Every
index read is in bounds, so the `Val.none` fallback of `nthD` is never
reached. -/
def zipMany (its : List (List Val)) : List (List Val) :=
  (List.range (minLen its)).map fun i => its.map fun l => nthD l i Val.none

/-- `itertools.zip_longest(*iterables, fillvalue=fv)` on finite sequences:
row `i` holds the i-th element of each iterable, with `fv` substituted past
the end of an exhausted iterable. -/
def zipLongestMany (fv : Val) (its : List (List Val)) : List (List Val) :=
  (List.range (maxLen its)).map fun i => its.map fun l => nthD l i fv

/-- `_create_zip(*iterables, fillvalue, type_longest)`. -/
def create_zip (its : List (List Val)) (fillvalue : Val) (type_longest : Bool) :
    List (List Val) :=
  if type_longest then zipLongestMany fillvalue its else zipMany its

/-- Python truthiness of the `defaults` argument: `None` and an empty
sequence are falsy, a nonempty sequence is truthy. -/
def truthy : Option (List Val) → Bool
  | Option.none => false
  | Option.some ds => !ds.isEmpty

/-- The substitution
`(x if x is not sentinel else defaults[i] for i, x in enumerate(vals))`
of `_namedzip_generator`.  In every reachable call `vals` is no longer than
`defaults`, so the `Val.none` fallback of `nthD` is never reached. -/
def applyDefaults (ds : List Val) : Nat → List Val → List Val
  | _, [] => []
  | i, x :: xs =>
      (if x = Val.sentinel then nthD ds i Val.none else x) :: applyDefaults ds (i + 1) xs

/-- `_namedzip_generator(zipped, named_tuple, defaults)`: wraps each zipped
row into a named tuple instance, substituting per-field defaults for the
sentinel when a truthy (nonempty) defaults sequence was given. -/
def namedzip_generator (zipped : List (List Val)) (nt : NamedTuple)
    (defaults : Option (List Val)) : List Record :=
  zipped.map fun vals =>
    if truthy defaults then ⟨nt, applyDefaults (defaults.getD []) 0 vals⟩
    else ⟨nt, vals⟩

/-- `_compare_iterables_to_fields(iterable_count, field_count)`: raises
`ValueError` unless the two counts agree. -/
def compare_iterables_to_fields (iterable_count field_count : Nat) :
    Except ZipError Unit :=
  if iterable_count ≠ field_count then
    Except.error (ZipError.arityMismatch iterable_count field_count)
  else Except.ok ()

/-- Runtime type facts about the `named_tuple` argument, as observed by
`inspect.isclass`, `issubclass(•, tuple)`, `hasattr(•, "__call__")` for a
non-class object, and `hasattr(•, "_fields")`. -/
structure PyClassLike where
  isclass : Bool
  tupleSubclass : Bool
  hasCallAttr : Bool
  hasFields : Bool
deriving DecidableEq, Repr

/-- Python `callable`: every class object is callable; a non-class object is
callable exactly when it defines `__call__`. -/
def callable (o : PyClassLike) : Bool := o.isclass || o.hasCallAttr

/-- `_verify_named_tuple(named_tuple)`. -/
def verify_named_tuple (o : PyClassLike) : Except ZipError Unit :=
  if o.isclass && o.tupleSubclass && callable o && o.hasFields then Except.ok ()
  else Except.error ZipError.typeError

/-- The `named_tuple` argument of `namedzip` and `namedzip_longest`: its
runtime type facts plus, for an actual named tuple class, the schema. -/
structure NTArg where
  obj : PyClassLike
  schema : NamedTuple
deriving DecidableEq, Repr

/-- What `namedzip` and `_namedzip_longest_v1` return on success: a generator
of records when iterables were supplied, otherwise the generator factory
function itself. -/
inductive NZValue where
  | gen : List Record → NZValue
  | factory : (List (List Val) → Except ZipError (List Record)) → NZValue

/-- The inner `_namedzip_factory` of `namedzip`. -/
def namedzip_factory (nt : NamedTuple) (iterables : List (List Val)) :
    Except ZipError (List Record) :=
  match compare_iterables_to_fields iterables.length nt.fields.length with
  | Except.error e => Except.error e
  | Except.ok _ =>
      Except.ok (namedzip_generator (create_zip iterables Val.none false) nt Option.none)

/-- `namedzip(named_tuple, *iterables)`. -/
def namedzip (named_tuple : NTArg) (iterables : List (List Val)) :
    Except ZipError NZValue :=
  match verify_named_tuple named_tuple.obj with
  | Except.error e => Except.error e
  | Except.ok _ =>
      if iterables.isEmpty then
        Except.ok (NZValue.factory (namedzip_factory named_tuple.schema))
      else
        match namedzip_factory named_tuple.schema iterables with
        | Except.error e => Except.error e
        | Except.ok rs => Except.ok (NZValue.gen rs)

/-- `namedzip_longest(named_tuple, *iterables, **kwargs)`: the body is a bare
`pass`, so the call ignores every argument, raises nothing and returns the
Python `None`, modelled as `Except.ok Option.none`. -/
def namedzip_longest (named_tuple : NTArg) (iterables : List (List Val))
    (fillvalue : Option Val) (defaults : Option (List Val)) :
    Except ZipError (Option NZValue) :=
  Except.ok Option.none

/-- The inner `_namedzip_longest_factory` of `_namedzip_longest_v1`. -/
def namedzip_longest_factory (nt : NamedTuple) (fillvalue : Val)
    (defaults : Option (List Val)) (iterables : List (List Val)) :
    Except ZipError (List Record) :=
  match compare_iterables_to_fields iterables.length nt.fields.length with
  | Except.error e => Except.error e
  | Except.ok _ =>
      Except.ok (namedzip_generator (create_zip iterables fillvalue true) nt defaults)

/-- `_namedzip_longest_v1(*iterables, typename, field_names, **kwargs)`.
`fillvalue` and `defaults` are popped from the keyword arguments, with `None`
when absent; in particular the created named tuple class never receives the
`defaults` keyword of `collections.namedtuple`, so its `_field_defaults`
mapping is empty.  A truthy `defaults` of the wrong size raises `ValueError`;
otherwise a supplied `defaults` (even an empty one) replaces the fill value
by the internal sentinel. -/
def namedzip_longest_v1 (typename : String) (field_names : List String)
    (iterables : List (List Val)) (fillvalue : Option Val)
    (defaults : Option (List Val)) : Except ZipError NZValue :=
  let fv0 : Val := fillvalue.getD Val.none
  let nt : NamedTuple := ⟨typename, field_names, []⟩
  if truthy defaults = true ∧ (defaults.getD []).length ≠ nt.fields.length then
    Except.error (ZipError.defaultsMismatch nt.fields.length (defaults.getD []).length)
  else
    let fv : Val := if defaults.isSome then Val.sentinel else fv0
    if iterables.isEmpty then
      Except.ok (NZValue.factory (namedzip_longest_factory nt fv defaults))
    else
      match namedzip_longest_factory nt fv defaults iterables with
      | Except.error e => Except.error e
      | Except.ok rs => Except.ok (NZValue.gen rs)

/-- Folding `Nat.min` over a list never exceeds the start value. -/
lemma foldlMin_le (ns : List Nat) (n : Nat) : ns.foldl Nat.min n ≤ n := by
  induction ns generalizing n with
  | nil => exact Nat.le_refl n
  | cons m ms ih => exact Nat.le_trans (ih (Nat.min n m)) (Nat.min_le_left n m)

/-- Folding `Nat.min` over a list never exceeds any member. -/
lemma foldlMin_le_of_mem {m : Nat} {ns : List Nat} (n : Nat) (h : m ∈ ns) :
    ns.foldl Nat.min n ≤ m := by
  induction ns generalizing n with
  | nil => cases h
  | cons k ks ih =>
      rcases List.mem_cons.mp h with hk | hk
      · subst hk
        exact Nat.le_trans (foldlMin_le ks (Nat.min n m)) (Nat.min_le_right n m)
      · exact ih (Nat.min n k) hk

/-- Folding `Nat.min` over a list yields the start value or a member. -/
lemma foldlMin_cases (ns : List Nat) (n : Nat) :
    ns.foldl Nat.min n = n ∨ ns.foldl Nat.min n ∈ ns := by
  induction ns generalizing n with
  | nil => exact Or.inl rfl
  | cons k ks ih =>
      rcases ih (Nat.min n k) with h | h
      · rcases Nat.le_total n k with hle | hle
        · exact Or.inl (by rw [List.foldl_cons, h]; exact Nat.min_eq_left hle)
        · refine Or.inr (List.mem_cons.mpr (Or.inl ?_))
          rw [List.foldl_cons, h]; exact Nat.min_eq_right hle
      · exact Or.inr (List.mem_cons.mpr (Or.inr h))

/-- The zip length is a lower bound on the length of every iterable. -/
lemma minLen_le_of_mem {l : List Val} {its : List (List Val)} (h : l ∈ its) :
    minLen its ≤ l.length := by
  cases its with
  | nil => cases h
  | cons a as =>
      rcases List.mem_cons.mp h with hl | hl
      · subst hl; exact foldlMin_le _ _
      · exact foldlMin_le_of_mem _ (List.mem_map_of_mem List.length hl)

/-- For at least one iterable, the zip length is attained. -/
lemma minLen_mem {its : List (List Val)} (h : its ≠ []) :
    minLen its ∈ its.map List.length := by
  cases its with
  | nil => exact absurd rfl h
  | cons a as =>
      rcases foldlMin_cases (as.map List.length) a.length with heq | hmem
      · exact List.mem_cons.mpr (Or.inl heq)
      · exact List.mem_cons.mpr (Or.inr hmem)

lemma length_zipMany (its : List (List Val)) : (zipMany its).length = minLen its := by
  simp [zipMany]

lemma length_zipLongestMany (fv : Val) (its : List (List Val)) :
    (zipLongestMany fv its).length = maxLen its := by
  simp [zipLongestMany]

lemma getElem?_zipMany {its : List (List Val)} {i : Nat} (h : i < minLen its) :
    (zipMany its)[i]? = some (its.map fun l => nthD l i Val.none) := by
  simp [zipMany, List.getElem?_range h]

lemma getElem?_zipLongestMany {fv : Val} {its : List (List Val)} {i : Nat}
    (h : i < maxLen its) :
    (zipLongestMany fv its)[i]? = some (its.map fun l => nthD l i fv) := by
  simp [zipLongestMany, List.getElem?_range h]

lemma length_namedzip_generator (zipped : List (List Val)) (nt : NamedTuple)
    (ds : Option (List Val)) :
    (namedzip_generator zipped nt ds).length = zipped.length := by
  simp [namedzip_generator]

lemma getElem?_namedzip_generator (zipped : List (List Val)) (nt : NamedTuple)
    (ds : Option (List Val)) (i : Nat) :
    (namedzip_generator zipped nt ds)[i]? =
      zipped[i]?.map fun vals =>
        if truthy ds then ⟨nt, applyDefaults (ds.getD []) 0 vals⟩
        else (⟨nt, vals⟩ : Record) := by
  simp [namedzip_generator]

/-- In bounds, `nthD` reads the actual element. -/
lemma getElem?_eq_some_nthD {l : List Val} {i : Nat} (h : i < l.length) (d : Val) :
    l[i]? = some (nthD l i d) := by
  simp [nthD, List.getElem?_eq_getElem h]

/-- Out of bounds, `nthD` yields the fallback. -/
lemma nthD_of_le {l : List Val} {i : Nat} (h : l.length ≤ i) (d : Val) :
    nthD l i d = d := by
  simp [nthD, List.getElem?_eq_none h]

/-- Pointwise description of the sentinel substitution. -/
lemma getElem?_applyDefaults (ds : List Val) (n j : Nat) (xs : List Val) :
    (applyDefaults ds n xs)[j]? =
      xs[j]?.map fun x => if x = Val.sentinel then nthD ds (n + j) Val.none else x := by
  induction xs generalizing n j with
  | nil => simp [applyDefaults]
  | cons x xs ih =>
      cases j with
      | zero => simp [applyDefaults]
      | succ j =>
          have := ih (n + 1) j
          simp only [applyDefaults, List.getElem?_cons_succ, this]
          have harith : n + 1 + j = n + (j + 1) := by omega
          rw [harith]

/-- Lookup of a field in the `_field_defaults` mapping of a named tuple
class. -/
def fieldDefault (nt : NamedTuple) (f : String) : Option Val :=
  (nt.fieldDefaults.find? fun p => p.1 == f).map Prod.snd

/-- Modelled from the spec: the fill cascade for a missing slot when no
explicit defaults table is supplied — the uniform fill value when one is
given, else the default embedded in the schema for that field, else the
`None` value. -/
def specFillPolicy (fillvalue : Option Val) (nt : NamedTuple) (f : String) : Val :=
  match fillvalue with
  | Option.some v => v
  | Option.none =>
      match fieldDefault nt f with
      | Option.some d => d
      | Option.none => Val.none

lemma verify_ok_iff (o : PyClassLike) :
    verify_named_tuple o = Except.ok ()
      ↔ (o.isclass = true ∧ o.tupleSubclass = true ∧ o.hasFields = true) := by
  obtain ⟨c, t, cc, f⟩ := o
  cases c <;> cases t <;> cases cc <;> cases f <;>
    simp [verify_named_tuple, callable]

lemma verify_cases (o : PyClassLike) :
    verify_named_tuple o = Except.ok ()
      ∨ verify_named_tuple o = Except.error ZipError.typeError := by
  unfold verify_named_tuple
  split <;> simp

lemma namedzip_factory_ne_typeError (nt : NamedTuple) (its : List (List Val)) :
    namedzip_factory nt its ≠ Except.error ZipError.typeError := by
  by_cases h : its.length = nt.fields.length <;>
    simp [namedzip_factory, compare_iterables_to_fields, h]

lemma namedzip_ne_typeError_of_ok {arg : NTArg} (its : List (List Val))
    (hv : verify_named_tuple arg.obj = Except.ok ()) :
    namedzip arg its ≠ Except.error ZipError.typeError := by
  by_cases hemp : its.isEmpty = true
  · simp [namedzip, hv, hemp]
  · cases hf : namedzip_factory arg.schema its with
    | error e =>
        have he : ¬ e = ZipError.typeError := by
          intro he
          exact namedzip_factory_ne_typeError arg.schema its (he ▸ hf)
        simp [namedzip, hv, hemp, hf, he]
    | ok rs => simp [namedzip, hv, hemp, hf]

lemma namedzip_typeError_iff (arg : NTArg) (its : List (List Val)) :
    namedzip arg its = Except.error ZipError.typeError
      ↔ ¬(arg.obj.isclass = true ∧ arg.obj.tupleSubclass = true
            ∧ arg.obj.hasFields = true) := by
  by_cases h : arg.obj.isclass = true ∧ arg.obj.tupleSubclass = true
      ∧ arg.obj.hasFields = true
  · have hv := (verify_ok_iff arg.obj).mpr h
    have hne := namedzip_ne_typeError_of_ok its hv
    simp [hne, h]
  · rcases verify_cases arg.obj with hv | hv
    · exact absurd ((verify_ok_iff arg.obj).mp hv) h
    · have hres : namedzip arg its = Except.error ZipError.typeError := by
        simp [namedzip, hv]
      simp [hres, h]

/-- C9: the public fill-tolerant entry point `namedzip_longest` is a bare
`pass` stub: for every combination of arguments it produces no record
sequence, performs no arity or defaults validation, raises no error, and
returns `None`. -/
theorem namedzip_longest_always_returns_none (named_tuple : NTArg)
    (iterables : List (List Val)) (fillvalue : Option Val)
    (defaults : Option (List Val)) :
    namedzip_longest named_tuple iterables fillvalue defaults
      = Except.ok Option.none := rfl

/-- C2, evaluated at the failing input: calling the public fill-tolerant
entry point `namedzip_longest` with one iterable against a two-field schema
raises no ArityMismatch at setup or ever — it just returns `None`.  (The
strict entry point `namedzip` does validate arity at setup; the claim fails
only on `namedzip_longest`.) -/
theorem namedzip_longest_skips_arity_validation :
    namedzip_longest ⟨⟨true, true, false, true⟩, ⟨"Pair", ["x", "y"], []⟩⟩
      [[Val.int 1]] Option.none Option.none = Except.ok Option.none := rfl

/-- C3, evaluated at the failing input: calling the public fill-tolerant
entry point `namedzip_longest` with a one-field schema and one iterable of
length two yields `None` instead of a two-record sequence. -/
theorem namedzip_longest_yields_no_records :
    namedzip_longest ⟨⟨true, true, false, true⟩, ⟨"Point", ["x"], []⟩⟩
      [[Val.int 1, Val.int 2]] Option.none Option.none
      = Except.ok Option.none := rfl

/-- C4, evaluated at the failing input: an explicit defaults table of size 0
against two schema fields is not rejected by `_namedzip_longest_v1` — the
check `if defaults and len(defaults) != ...` skips an empty (falsy) table, so
no DefaultsMismatch is raised and a generator is returned, with the internal
sentinel silently installed as the fill value. -/
theorem empty_defaults_table_not_rejected :
    namedzip_longest_v1 "Pair" ["x", "y"] [[Val.int 1], [Val.int 2]]
      Option.none (Option.some [])
      = Except.ok (NZValue.gen
          [⟨⟨"Pair", ["x", "y"], []⟩, [Val.int 1, Val.int 2]⟩]) := rfl

/-- C8, evaluated at the failing input: with an explicit empty defaults table
and inputs of unequal length, `_namedzip_longest_v1` uses the internal
sentinel as the `zip_longest` fill value but the generator does not
substitute it back (the empty table is falsy), so the sentinel object
appears as a field value of the second produced record. -/
theorem sentinel_escapes_into_record :
    namedzip_longest_v1 "Pair" ["x", "y"] [[Val.int 1, Val.int 2], [Val.int 7]]
      Option.none (Option.some [])
      = Except.ok (NZValue.gen
          [⟨⟨"Pair", ["x", "y"], []⟩, [Val.int 1, Val.int 7]⟩,
           ⟨⟨"Pair", ["x", "y"], []⟩, [Val.int 2, Val.sentinel]⟩]) := rfl

/-- C10: `namedzip` raises TypeError exactly when its first argument is not a
class that is a tuple subclass carrying a `_fields` attribute (the extra
`callable` conjunct of the source is subsumed, every class being callable);
and the TypeError outcome is decided before the arity check and without
touching any iterable, so it does not depend on the iterables at all. -/
theorem verify_named_tuple_gate (arg : NTArg) (its its2 : List (List Val)) :
    (namedzip arg its = Except.error ZipError.typeError
      ↔ ¬(arg.obj.isclass = true ∧ arg.obj.tupleSubclass = true
            ∧ arg.obj.hasFields = true)) ∧
    (namedzip arg its = Except.error ZipError.typeError
      ↔ namedzip arg its2 = Except.error ZipError.typeError) :=
  ⟨namedzip_typeError_iff arg its,
   (namedzip_typeError_iff arg its).trans (namedzip_typeError_iff arg its2).symm⟩

/-- C1: with a valid named tuple class, iterables supplied, and matching
arity, `namedzip` returns a generator whose length is the minimum of the
input lengths (a lower bound on every input length, attained by at least one
input), whose record `i` carries the schema and, in field order, the i-th
element of each input; every slot of every record is pinned down this way,
so elements past the minimum appear in no record. -/
theorem namedzip_strict_min (arg : NTArg) (its : List (List Val))
    (hv : verify_named_tuple arg.obj = Except.ok ())
    (hne : its ≠ [])
    (ha : its.length = arg.schema.fields.length) :
    ∃ rs : List Record,
      namedzip arg its = Except.ok (NZValue.gen rs) ∧
      (∀ l ∈ its, rs.length ≤ l.length) ∧
      rs.length ∈ its.map List.length ∧
      ∀ i : Nat, i < rs.length →
        ∃ r : Record, rs[i]? = some r ∧ r.schema = arg.schema ∧
          r.values.length = its.length ∧
          ∀ (j : Nat) (l : List Val), its[j]? = some l → r.values[j]? = l[i]? := by
  refine ⟨namedzip_generator (zipMany its) arg.schema Option.none, ?_, ?_, ?_, ?_⟩
  · have hemp : its.isEmpty = false := by
      cases its with
      | nil => exact absurd rfl hne
      | cons a as => rfl
    simp [namedzip, hv, hemp, namedzip_factory, compare_iterables_to_fields, ha,
      create_zip]
  · intro l hl
    rw [length_namedzip_generator, length_zipMany]
    exact minLen_le_of_mem hl
  · rw [length_namedzip_generator, length_zipMany]
    exact minLen_mem hne
  · intro i hi
    rw [length_namedzip_generator, length_zipMany] at hi
    refine ⟨⟨arg.schema, its.map fun l => nthD l i Val.none⟩, ?_, rfl, by simp, ?_⟩
    · rw [getElem?_namedzip_generator, getElem?_zipMany hi]
      rfl
    · intro j l hj
      have hmem : l ∈ its := List.getElem?_mem hj
      have hlt : i < l.length := Nat.lt_of_lt_of_le hi (minLen_le_of_mem hmem)
      simp only [List.getElem?_map, hj, Option.map_some']
      exact (getElem?_eq_some_nthD hlt Val.none).symm

/-- C1 witness: the theorem instantiated at a two-field schema with inputs of
lengths 3 and 2. -/
theorem namedzip_strict_min_witness :
    ∃ rs : List Record,
      namedzip ⟨⟨true, true, false, true⟩, ⟨"Pair", ["x", "y"], []⟩⟩
          [[Val.int 1, Val.int 2, Val.int 3], [Val.str "a", Val.str "b"]]
        = Except.ok (NZValue.gen rs) ∧
      (∀ l ∈ [[Val.int 1, Val.int 2, Val.int 3], [Val.str "a", Val.str "b"]],
          rs.length ≤ l.length) ∧
      rs.length ∈ [[Val.int 1, Val.int 2, Val.int 3],
          [Val.str "a", Val.str "b"]].map List.length ∧
      ∀ i : Nat, i < rs.length →
        ∃ r : Record, rs[i]? = some r ∧ r.schema = ⟨"Pair", ["x", "y"], []⟩ ∧
          r.values.length = 2 ∧
          ∀ (j : Nat) (l : List Val), [[Val.int 1, Val.int 2, Val.int 3],
              [Val.str "a", Val.str "b"]][j]? = some l → r.values[j]? = l[i]? :=
  namedzip_strict_min ⟨⟨true, true, false, true⟩, ⟨"Pair", ["x", "y"], []⟩⟩
    [[Val.int 1, Val.int 2, Val.int 3], [Val.str "a", Val.str "b"]]
    rfl (by decide) rfl

lemma isEmpty_eq_false_of_ne {its : List (List Val)} (h : its ≠ []) :
    its.isEmpty = false := by
  cases its with
  | nil => exact absurd rfl h
  | cons a as => rfl

/-- C5: in a fill-tolerant call through `_namedzip_longest_v1` with no
explicit defaults table, every missing slot is filled according to the
cascade of the spec: the uniform fill value when one is given, else the
default embedded in the schema for that field, else `None`.  The schema the
function creates carries no embedded defaults (the `defaults` keyword is
popped before `collections.namedtuple` is called), so the middle branch of
the cascade is vacuous and the fill is the given fill value or `None`. -/
theorem fill_cascade_without_defaults_table (typename : String)
    (field_names : List String) (its : List (List Val)) (fillvalue : Option Val)
    (hne : its ≠ []) (ha : its.length = field_names.length) :
    ∃ rs : List Record,
      namedzip_longest_v1 typename field_names its fillvalue Option.none
        = Except.ok (NZValue.gen rs) ∧
      ∀ i : Nat, i < rs.length →
        ∃ r : Record, rs[i]? = some r ∧
          ∀ (j : Nat) (l : List Val), its[j]? = some l → l.length ≤ i →
            r.values[j]?
              = some (specFillPolicy fillvalue ⟨typename, field_names, []⟩
                  (field_names.getD j "")) := by
  have hemp := isEmpty_eq_false_of_ne hne
  refine ⟨namedzip_generator
      (zipLongestMany (fillvalue.getD Val.none) its) ⟨typename, field_names, []⟩
      Option.none, ?_, ?_⟩
  · simp [namedzip_longest_v1, truthy, hemp, namedzip_longest_factory,
      compare_iterables_to_fields, ha, create_zip]
  · intro i hi
    rw [length_namedzip_generator, length_zipLongestMany] at hi
    refine ⟨⟨⟨typename, field_names, []⟩,
        its.map fun l => nthD l i (fillvalue.getD Val.none)⟩, ?_, ?_⟩
    · rw [getElem?_namedzip_generator, getElem?_zipLongestMany hi]
      rfl
    · intro j l hj hlen
      simp only [List.getElem?_map, hj, Option.map_some']
      rw [nthD_of_le hlen]
      have hpolicy : specFillPolicy fillvalue ⟨typename, field_names, []⟩
          (field_names.getD j "") = fillvalue.getD Val.none := by
        cases fillvalue with
        | none => simp [specFillPolicy, fieldDefault]
        | some v => simp [specFillPolicy]
      rw [hpolicy]

/-- C5 witness: the theorem instantiated with a uniform fill value 0 and
inputs of lengths 2 and 1. -/
theorem fill_cascade_without_defaults_table_witness :
    ∃ rs : List Record,
      namedzip_longest_v1 "Pair" ["x", "y"] [[Val.int 1, Val.int 2], [Val.int 7]]
          (Option.some (Val.int 0)) Option.none
        = Except.ok (NZValue.gen rs) ∧
      ∀ i : Nat, i < rs.length →
        ∃ r : Record, rs[i]? = some r ∧
          ∀ (j : Nat) (l : List Val),
            [[Val.int 1, Val.int 2], [Val.int 7]][j]? = some l → l.length ≤ i →
            r.values[j]?
              = some (specFillPolicy (Option.some (Val.int 0))
                  ⟨"Pair", ["x", "y"], []⟩ (["x", "y"].getD j "")) :=
  fill_cascade_without_defaults_table "Pair" ["x", "y"]
    [[Val.int 1, Val.int 2], [Val.int 7]] (Option.some (Val.int 0))
    (by decide) rfl

/-- C6: in a fill-tolerant call through `_namedzip_longest_v1` where both a
nonempty explicit defaults table of the right size and a uniform fill value
are supplied, the result is literally independent of the fill value (the
implementation discards it, replacing it by the internal sentinel before
zipping), and every missing slot of field `j` is filled from slot `j` of the
table — the table wins outright for all fields. -/
theorem defaults_table_overrides_fillvalue (typename : String)
    (field_names : List String) (its : List (List Val)) (fillvalue : Val)
    (ds : List Val) (hds : ds ≠ []) (hlen : ds.length = field_names.length)
    (hne : its ≠ []) (ha : its.length = field_names.length) :
    (∀ fillvalue2 : Option Val,
        namedzip_longest_v1 typename field_names its (Option.some fillvalue)
            (Option.some ds)
          = namedzip_longest_v1 typename field_names its fillvalue2
            (Option.some ds)) ∧
    ∃ rs : List Record,
      namedzip_longest_v1 typename field_names its (Option.some fillvalue)
          (Option.some ds)
        = Except.ok (NZValue.gen rs) ∧
      ∀ i : Nat, i < rs.length →
        ∃ r : Record, rs[i]? = some r ∧
          ∀ (j : Nat) (l : List Val), its[j]? = some l → l.length ≤ i →
            r.values[j]? = ds[j]? := by
  have hemp := isEmpty_eq_false_of_ne hne
  have hdse : ds.isEmpty = false := by
    cases ds with
    | nil => exact absurd rfl hds
    | cons a as => rfl
  constructor
  · intro fillvalue2
    simp [namedzip_longest_v1]
  · refine ⟨namedzip_generator (zipLongestMany Val.sentinel its)
        ⟨typename, field_names, []⟩ (Option.some ds), ?_, ?_⟩
    · simp [namedzip_longest_v1, truthy, hdse, hlen, hemp,
        namedzip_longest_factory, compare_iterables_to_fields, ha, create_zip]
    · intro i hi
      rw [length_namedzip_generator, length_zipLongestMany] at hi
      refine ⟨⟨⟨typename, field_names, []⟩,
          applyDefaults ds 0 (its.map fun l => nthD l i Val.sentinel)⟩, ?_, ?_⟩
      · rw [getElem?_namedzip_generator, getElem?_zipLongestMany hi]
        simp [truthy, hdse]
      · intro j l hj hlen2
        have hjlt : j < its.length := by
          rcases List.getElem?_eq_some_iff.mp hj with ⟨hh, _⟩
          exact hh
        have hjds : j < ds.length := by
          rw [hlen, ← ha]; exact hjlt
        simp only [getElem?_applyDefaults, List.getElem?_map, hj,
          Option.map_some']
        rw [nthD_of_le hlen2]
        simp only [if_pos rfl, Nat.zero_add]
        exact (getElem?_eq_some_nthD hjds Val.none).symm

/-- C6 witness: the theorem instantiated with fill value 0 and the defaults
table [8, 9]. -/
theorem defaults_table_overrides_fillvalue_witness :
    (∀ fillvalue2 : Option Val,
        namedzip_longest_v1 "Pair" ["x", "y"]
            [[Val.int 1, Val.int 2], [Val.int 7]] (Option.some (Val.int 0))
            (Option.some [Val.int 8, Val.int 9])
          = namedzip_longest_v1 "Pair" ["x", "y"]
            [[Val.int 1, Val.int 2], [Val.int 7]] fillvalue2
            (Option.some [Val.int 8, Val.int 9])) ∧
    ∃ rs : List Record,
      namedzip_longest_v1 "Pair" ["x", "y"]
          [[Val.int 1, Val.int 2], [Val.int 7]] (Option.some (Val.int 0))
          (Option.some [Val.int 8, Val.int 9])
        = Except.ok (NZValue.gen rs) ∧
      ∀ i : Nat, i < rs.length →
        ∃ r : Record, rs[i]? = some r ∧
          ∀ (j : Nat) (l : List Val),
            [[Val.int 1, Val.int 2], [Val.int 7]][j]? = some l → l.length ≤ i →
            r.values[j]? = [Val.int 8, Val.int 9][j]? :=
  defaults_table_overrides_fillvalue "Pair" ["x", "y"]
    [[Val.int 1, Val.int 2], [Val.int 7]] (Val.int 0) [Val.int 8, Val.int 9]
    (by decide) rfl (by decide) rfl

/-- C7 counterexample: called with zero input sequences and a zero-field
schema, `namedzip` does not yield an empty sequence of records — with no
iterables supplied it returns the generator factory function instead. -/
theorem zero_arity_yields_factory_not_sequence :
    namedzip ⟨⟨true, true, false, true⟩, ⟨"Empty", [], []⟩⟩ []
      ≠ Except.ok (NZValue.gen []) := by
  intro h
  have hred : namedzip ⟨⟨true, true, false, true⟩, ⟨"Empty", [], []⟩⟩ []
      = Except.ok (NZValue.factory (namedzip_factory ⟨"Empty", [], []⟩)) := rfl
  have h2 := hred.symm.trans h
  have h3 : NZValue.factory (namedzip_factory ⟨"Empty", [], []⟩)
      = NZValue.gen [] := by
    injection h2
  exact NZValue.noConfusion h3

/-- C7 amended: with a valid named tuple argument, calling `namedzip` with
zero input sequences is legal and returns the generator factory (not a
sequence); applying that factory to zero input sequences under a zero-field
schema yields the empty sequence of records, terminating immediately. -/
theorem zero_arity_factory_empty_sequence (arg : NTArg)
    (hv : verify_named_tuple arg.obj = Except.ok ())
    (hf : arg.schema.fields = []) :
    namedzip arg [] = Except.ok (NZValue.factory (namedzip_factory arg.schema)) ∧
    namedzip_factory arg.schema [] = Except.ok [] := by
  constructor
  · simp [namedzip, hv]
  · simp [namedzip_factory, compare_iterables_to_fields, hf, create_zip,
      zipMany, minLen, namedzip_generator]

/-- C7 witness: the amended theorem instantiated at a zero-field schema. -/
theorem zero_arity_factory_empty_sequence_witness :
    namedzip ⟨⟨true, true, false, true⟩, ⟨"Empty", [], []⟩⟩ []
      = Except.ok (NZValue.factory (namedzip_factory ⟨"Empty", [], []⟩)) ∧
    namedzip_factory ⟨"Empty", [], []⟩ [] = Except.ok [] :=
  zero_arity_factory_empty_sequence ⟨⟨true, true, false, true⟩, ⟨"Empty", [], []⟩⟩
    rfl rfl

end Namedzip
